import Mathlib

/-!
Verification of the secret-leak scanner's core pipeline.

This file is a shallow embedding, in Lean 4, of the rule-evaluation and
scan-engine code of the repository:

  * `src/scout/core/redaction.py`  (`redact_value`, `truncate`)
  * `src/scout/core/matcher.py`    (`normalize_rel_path`, `any_glob_match`,
                                    `is_path_included`)
  * `src/scout/core/policy.py`     (`evaluate_file` and the per-rule
                                    evaluators)
  * `src/scout/core/engine.py`     (`run_scan`, `_dedupe_findings`)
  * `src/scout/rules/validators.py` (`validate_rules`, `_ensure_unique_ids`)
  * `src/scout/scanners/github/scan.py` (result collection of `scan_github`)

Python strings are modelled as Lean `String` (a wrapper around `List Char`);
character-level operations (`strip`, slicing, `splitlines`, `startswith`,
`upper`) are defined below on the underlying character list.  Regular
expression matching, shell-glob matching (`fnmatch`) and the SHA-256 based
`stable_hash` are uninterpreted: they are threaded through the definitions as
a bundle of oracle functions (`Prims`), so every theorem quantifies over all
possible matchers.  A regex pattern that fails to compile inside
`_allow_regex_suppresses` is swallowed by the Python code (`except re.error:
continue`); the oracle model absorbs this as "that pattern matches nothing".

The data model (`scout/core/models.py`) is not part of the sources; its
types are modelled from the specification, section 3 ("DATA MODEL"), and
from how the present sources construct and consume them.  Wall-clock fields
(`started_at`, `finished_at`, `duration_ms`) are outside the embedding.
-/

namespace Scout

/-! ### Python string primitives -/

/-- Whitespace stripped by Python's `str.strip()` (ASCII part; the claims
below only exercise these characters). -/
def isPySpace (c : Char) : Bool :=
  c = ' ' || c = '\t' || c = '\n' || c = '\r' || c = '\x0b' || c = '\x0c'

/-- Python `s.strip()`: drop leading and trailing whitespace. -/
def pyStrip (s : String) : String :=
  ⟨((s.data.dropWhile isPySpace).reverse.dropWhile isPySpace).reverse⟩

/-- Python `s.startswith(p)`. -/
def pyStartsWith (s p : String) : Bool :=
  p.data.isPrefixOf s.data

/-- Python `s.upper()` (ASCII case folding). -/
def pyUpper (s : String) : String :=
  ⟨s.data.map Char.toUpper⟩

/-- Python `s or default` for an optional string field: `None` and the empty
string are falsy and give the default. -/
def pyOrStr (s : Option String) (fallback : String) : String :=
  match s with
  | none => fallback
  | some v => if v = "" then fallback else v

/-- Python truthiness of an optional text value: `None` and `""` are falsy
(`if not text: continue`). -/
def textFalsy (t : Option String) : Bool :=
  match t with
  | none => true
  | some s => s = ""

/-- Helper for `splitlines`: split a character list at newline characters. -/
def splitNl : List Char → List String
  | [] => [⟨[]⟩]
  | c :: cs =>
    if c = '\n' then ⟨[]⟩ :: splitNl cs
    else
      match splitNl cs with
      | [] => [⟨[c]⟩]
      | h :: t => ⟨c :: h.data⟩ :: t

/-- Python `text.splitlines()` restricted to `'\n'` separators: split at
newlines, without a trailing empty piece for a trailing newline, and `[]`
for the empty string. -/
def splitlines (s : String) : List String :=
  let parts := splitNl s.data
  match parts.getLast? with
  | some last => if last = "" then parts.dropLast else parts
  | none => parts

/-- Python `enumerate(lines, start=1)`. -/
def enum1 (l : List String) : List (Nat × String) :=
  l.enum.map (fun p => (p.1 + 1, p.2))

/-! ### Data model

Modelled from the spec: `scout/core/models.py` is absent from the sources;
the types below follow section 3 of the specification and the way the
present modules construct and consume them. -/

/-- Modelled from the spec: rule severity (critical/high/medium/low). -/
inductive Severity where
  | critical
  | high
  | medium
  | low
deriving DecidableEq

/-- Modelled from the spec: kind of an emitted finding. -/
inductive FindingKind where
  | filename
  | content
  | structured
deriving DecidableEq

/-- Modelled from the spec: scope of a regex rule. -/
inductive MatchScope where
  | file
  | line
deriving DecidableEq

/-- Modelled from the spec: the tag of a rule's variant payload. -/
inductive RuleType where
  | filename
  | regex
  | structured
deriving DecidableEq

/-- Modelled from the spec: value policy of a structured rule. -/
inductive ValuePolicy where
  | any
  | non_empty
  | must_reference_env
  | must_reference_vault
  | plaintext
deriving DecidableEq

/-- Modelled from the spec: the `filename` payload of a rule;
`pattern_type` is the string `"glob"` or `"regex"`. -/
structure FilenameRule where
  pattern : String
  pattern_type : String
deriving DecidableEq

/-- Modelled from the spec: the `regex` payload of a rule. -/
structure RegexRule where
  regex : String
  multiline : Bool
  scope : MatchScope
  max_matches : Nat
deriving DecidableEq

/-- Modelled from the spec: the `structured` payload of a rule; `format`
is the declared parser format name (the `.value` of the format enum). -/
structure StructuredRule where
  format : String
  forbidden_keys : List String
  allowed_keys : List String
  case_insensitive_keys : Bool
  value_policy : ValuePolicy
deriving DecidableEq

/-- Modelled from the spec: a scan rule with exactly one variant payload.
The source field `include` is a Lean keyword and is rendered here as
`include_globs`; `exclude` keeps its name. -/
structure Rule where
  id : String
  severity : Severity
  enabled : Bool
  description : Option String := none
  include_globs : List String := []
  exclude : List String := []
  allow_paths : List String := []
  allow_regexes : List String := []
  type : RuleType
  filename : Option FilenameRule := none
  regex : Option RegexRule := none
  structured : Option StructuredRule := none
deriving DecidableEq

/-- Modelled from the spec: the rule list used by one scan. -/
structure RuleSet where
  rules : List Rule
deriving DecidableEq

/-- Modelled from the spec: `RuleSet.enabled()` yields the enabled rules in
order. -/
def RuleSet.enabledRules (rs : RuleSet) : List Rule :=
  rs.rules.filter (fun r => r.enabled)

/-- Modelled from the spec: a candidate file produced by an enumerator. -/
structure FileCandidate where
  path : String
  rel_path : String
  size_bytes : Nat
  is_binary : Bool
  ext : Option String := none
deriving DecidableEq

/-- Modelled from the spec: one rule-positive outcome. -/
structure Finding where
  target : String
  file : String
  kind : FindingKind
  rule_id : String
  severity : Severity
  message : String
  line : Option Nat := none
  sample : Option String := none
  key : Option String := none
  value_hint : Option String := none
  match_hash : Option String := none
deriving DecidableEq

/-- Modelled from the spec: engine configuration consumed by the core. -/
structure ScanConfig where
  max_file_bytes : Nat
  skip_dirs : List String := []
  include_ignored : Bool := false
  deterministic : Bool := true
  redact : Bool := true
deriving DecidableEq

/-- Modelled from the spec: a recoverable per-scan error entry.  The
`detail` field is optional in the data model; every construction in the
embedded code supplies it, so it is kept as a plain string. -/
structure ScanError where
  target : String
  message : String
  detail : String
deriving DecidableEq

/-- Modelled from the spec: per-scan counters (wall-clock duration is not
modelled). -/
structure ScanStats where
  files_considered : Nat := 0
  files_scanned : Nat := 0
  files_skipped_binary : Nat := 0
  files_skipped_too_large : Nat := 0
  findings : Nat := 0
deriving DecidableEq

/-- Modelled from the spec: the kind of a scan target. -/
inductive TargetKind where
  | localTarget
  | github
deriving DecidableEq

/-- Modelled from the spec: a logical scan unit; `meta` is a free-form map,
modelled as an association list of strings. -/
structure ScanTarget where
  name : String
  kind : TargetKind
  root_path : String
  meta : List (String × String) := []
deriving DecidableEq

/-- Modelled from the spec: the result of one scan (timestamps omitted). -/
structure ScanResult where
  targets : List ScanTarget
  findings : List Finding := []
  errors : List ScanError := []
  stats : ScanStats := {}
deriving DecidableEq

/-! ### Uninterpreted matching and hashing primitives

Regex and glob matching and SHA-256 hashing are external to the logic; the
code under verification only composes their results.  They are bundled as a
record of oracle functions over which all theorems quantify. -/

/-- Oracle bundle: `fnmatch pat rel` is `fnmatch.fnmatch(rel, pat)`;
`reSearch pat ml text` is `re.search(pat, text, IGNORECASE [| MULTILINE |
DOTALL when ml])` viewed as a boolean; `reFinditer pat ml text` is the list
of raw matched substrings of `re.finditer`, in scan order; `stableHash` is
`stable_hash` over its argument parts. -/
structure Prims where
  fnmatch : String → String → Bool
  reSearch : String → Bool → String → Bool
  reFinditer : String → Bool → String → List String
  stableHash : List String → String

/-! ### Embedding of `scout/core/redaction.py` -/

/-- Embedding of `redact_value` (redaction.py lines 6-16).  Python's
`v[-keep:]` is the last `keep` characters for the `keep=4` call sites used
by the code. -/
def redact_value (value : String) (keep : Nat) : String :=
  let v := pyStrip value
  if v = "" then "***REDACTED***"
  else if v.length ≤ keep * 2 + 2 then "***REDACTED***"
  else ⟨v.data.take keep ++ '…' :: v.data.drop (v.data.length - keep)⟩

/-- Embedding of `truncate` (redaction.py lines 19-23). -/
def truncate (value : String) (max_len : Nat) : String :=
  if value.length ≤ max_len then value else ⟨value.data.take max_len ++ ['…']⟩

/-! ### Embedding of `scout/core/matcher.py` -/

/-- Embedding of `normalize_rel_path`: replace each backslash with a
forward slash (`rel_path or ""` is the identity on strings). -/
def normalize_rel_path (rel_path : String) : String :=
  ⟨rel_path.data.map (fun c => if c = '\\' then '/' else c)⟩

/-- Embedding of `any_glob_match`. -/
def any_glob_match (P : Prims) (rel_path : String) (globs : List String) : Bool :=
  globs.any (fun g => P.fnmatch g (normalize_rel_path rel_path))

/-- Embedding of `is_path_included`: empty include list means "include
unless excluded". -/
def is_path_included (P : Prims) (rel_path : String)
    (include_globs exclude_globs : List String) : Bool :=
  let rp := normalize_rel_path rel_path
  if !exclude_globs.isEmpty && any_glob_match P rp exclude_globs then false
  else if include_globs.isEmpty then true
  else any_glob_match P rp include_globs

/-! ### Embedding of `scout/core/policy.py` -/

/-- A Python value observed through the structured evaluator: either `None`
or any other value represented by its `str()` rendering (the evaluator only
uses `is None` and `str`). -/
inductive PyVal where
  | vnone
  | vstr (s : String)
deriving DecidableEq

/-- Python `str(v)` on a `PyVal`. -/
def pyStr (v : PyVal) : String :=
  match v with
  | .vnone => "None"
  | .vstr s => s

/-- Outcome of a structured parser invocation: it may raise, return a
non-dict truthy value, or produce a mapping (a falsy return such as `None`
is folded to the empty mapping by `parser(text) or {}`). -/
inductive ParseOut where
  | raised
  | nonDict
  | dict (entries : List (String × PyVal))

/-- A structured parser: file text to parse outcome.  Keys of the mapping
are carried already stringified (the evaluator applies `str(k)`). -/
def StructuredParser := String → ParseOut

/-- Embedding of `_allow_regex_suppresses` (policy.py lines 101-111): some
allow-regex matches the text under IGNORECASE.  A pattern raising
`re.error` is skipped by the source; the oracle absorbs that case as the
pattern matching nothing. -/
def allow_regex_suppresses (P : Prims) (rule : Rule) (text : String) : Bool :=
  rule.allow_regexes.any (fun arx => P.reSearch arx false text)

/-- Embedding of `_safe_sample` (policy.py lines 114-116). -/
def safe_sample (sample : String) (redact : Bool) : String :=
  let s := truncate (pyStrip sample) 160
  if redact then redact_value s 4 else s

/-- Embedding of `_eval_filename_rule` (policy.py lines 77-98); the
tag/payload mismatch that would fail the source's `assert` contributes no
findings here (the validator rules it out on validated rule sets). -/
def eval_filename_rule (P : Prims) (target rel_path : String) (rule : Rule) :
    List Finding :=
  match rule.filename with
  | none => []
  | some fr =>
    let matched :=
      if fr.pattern_type = "glob" then any_glob_match P rel_path [fr.pattern]
      else P.reSearch fr.pattern false rel_path
    if matched then
      [{ target := target, file := rel_path, kind := FindingKind.filename,
         rule_id := rule.id, severity := rule.severity,
         message := pyOrStr rule.description "Suspicious filename detected",
         match_hash := some (P.stableHash [rule.id, rel_path, "filename"]) }]
    else []

/-- The finding emitted for one raw regex match in FILE scope. -/
def contentFindingFile (P : Prims) (target rel_path : String) (rule : Rule)
    (redact : Bool) (raw : String) : Finding :=
  { target := target, file := rel_path, kind := FindingKind.content,
    rule_id := rule.id, severity := rule.severity,
    message := pyOrStr rule.description "Secret-like pattern detected",
    sample := some (safe_sample raw redact),
    match_hash := some (P.stableHash [rule.id, rel_path, "content", "file", raw]) }

/-- The finding emitted for one raw regex match in LINE scope at line
`idx`. -/
def contentFindingLine (P : Prims) (target rel_path : String) (rule : Rule)
    (redact : Bool) (idx : Nat) (raw : String) : Finding :=
  { target := target, file := rel_path, kind := FindingKind.content,
    rule_id := rule.id, severity := rule.severity,
    message := pyOrStr rule.description "Secret-like pattern detected",
    line := some idx,
    sample := some (safe_sample raw redact),
    match_hash := some (P.stableHash [rule.id, rel_path, "content", toString idx, raw]) }

/-- FILE-scope match loop of `_eval_regex_rule` (policy.py lines 129-152):
emit per match, stop once the running count reaches `max_matches`. -/
def regexFileLoop (P : Prims) (target rel_path : String) (rule : Rule)
    (rc : RegexRule) (redact : Bool) : List String → Nat → List Finding
  | [], _ => []
  | raw :: rest, count =>
    if allow_regex_suppresses P rule raw then
      regexFileLoop P target rel_path rule rc redact rest count
    else
      let f := contentFindingFile P target rel_path rule redact raw
      if rc.max_matches ≤ count + 1 then [f]
      else f :: regexFileLoop P target rel_path rule rc redact rest (count + 1)

/-- Inner match loop of the LINE scope (policy.py lines 164-184): returns
the findings from this line, the updated count, and whether the early
`return out` fired (count reached `max_matches`). -/
def lineMatchLoop (P : Prims) (target rel_path : String) (rule : Rule)
    (rc : RegexRule) (redact : Bool) (idx : Nat) :
    List String → Nat → List Finding × Nat × Bool
  | [], count => ([], count, false)
  | raw :: rest, count =>
    if allow_regex_suppresses P rule raw then
      lineMatchLoop P target rel_path rule rc redact idx rest count
    else
      let f := contentFindingLine P target rel_path rule redact idx raw
      if rc.max_matches ≤ count + 1 then ([f], count + 1, true)
      else
        let r := lineMatchLoop P target rel_path rule rc redact idx rest (count + 1)
        (f :: r.1, r.2.1, r.2.2)

/-- LINE-scope loop of `_eval_regex_rule` (policy.py lines 154-186): skip
short (`len < 4`, which subsumes empty) and allowlisted lines, otherwise
run the per-line match loop; an early return aborts the remaining lines. -/
def regexLineLoop (P : Prims) (target rel_path : String) (rule : Rule)
    (rc : RegexRule) (redact : Bool) : List (Nat × String) → Nat → List Finding
  | [], _ => []
  | (idx, line) :: rest, count =>
    if line.length < 4 then
      regexLineLoop P target rel_path rule rc redact rest count
    else if allow_regex_suppresses P rule line then
      regexLineLoop P target rel_path rule rc redact rest count
    else
      let r := lineMatchLoop P target rel_path rule rc redact idx
        (P.reFinditer rc.regex rc.multiline line) count
      if r.2.2 then r.1
      else r.1 ++ regexLineLoop P target rel_path rule rc redact rest r.2.1

/-- Embedding of `_eval_regex_rule` (policy.py lines 119-186). -/
def eval_regex_rule (P : Prims) (target rel_path : String) (rule : Rule)
    (text : String) (redact : Bool) : List Finding :=
  match rule.regex with
  | none => []
  | some rc =>
    if rc.scope = MatchScope.file then
      regexFileLoop P target rel_path rule rc redact
        (P.reFinditer rc.regex rc.multiline text) 0
    else
      regexLineLoop P target rel_path rule rc redact (enum1 (splitlines text)) 0

/-- Characters counted as "digit/symbol-ish" by the plaintext heuristic. -/
def plaintextSymbols : List Char := "_-+/=.".data

/-- Embedding of `_looks_plaintext_secret` (policy.py lines 189-203). -/
def looks_plaintext_secret (v : String) : Bool :=
  let s := pyStrip v
  if s = "" then false
  else if pyStartsWith s "$\x7b" || pyStartsWith s "$" || pyStartsWith s "vault://" then false
  else if s.length < 12 then false
  else
    (s.data.any (fun c => c.isAlpha)) &&
      (s.data.any (fun c => c.isDigit || plaintextSymbols.contains c))

/-- Embedding of `_value_violates_policy` (policy.py lines 206-229). -/
def value_violates_policy (policy : ValuePolicy) (value : PyVal) : Bool :=
  if policy = ValuePolicy.any then true
  else
    let s := match value with
      | .vnone => ""
      | v => pyStrip (pyStr v)
    if policy = ValuePolicy.non_empty then !(s = "")
    else if policy = ValuePolicy.must_reference_env then
      !(pyStartsWith s "$" || pyStartsWith s "$\x7b")
    else if policy = ValuePolicy.must_reference_vault then
      !(pyStartsWith s "vault://")
    else if policy = ValuePolicy.plaintext then looks_plaintext_secret s
    else true

/-- Key normalization of the structured evaluator: upper-case iff
`case_insensitive_keys`. -/
def normKey (cfg : StructuredRule) (k : String) : String :=
  if cfg.case_insensitive_keys then pyUpper k else k

/-- The finding emitted for one flagged key/value pair of a structured
rule. -/
def structuredFinding (P : Prims) (target rel_path : String) (rule : Rule)
    (redact : Bool) (k : String) (v : PyVal) : Finding :=
  { target := target, file := rel_path, kind := FindingKind.structured,
    rule_id := rule.id, severity := rule.severity,
    message := pyOrStr rule.description "Forbidden key detected",
    key := some k,
    value_hint := match v with
      | .vnone => none
      | w => some (safe_sample (pyStr w) redact),
    match_hash := some (P.stableHash [rule.id, rel_path, "structured", k, pyStr v]) }

/-- Key/value loop of `_eval_structured_rule` (policy.py lines 263-294):
skip allowed keys (when `allowed` is non-empty), skip keys outside a
non-empty `forbidden` set, then apply the value policy. -/
def structuredLoop (P : Prims) (target rel_path : String) (rule : Rule)
    (cfg : StructuredRule) (redact : Bool) :
    List (String × PyVal) → List Finding
  | [] => []
  | (k, v) :: rest =>
    let nk := normKey cfg k
    let forbidden := cfg.forbidden_keys.map (normKey cfg)
    let allowed := cfg.allowed_keys.map (normKey cfg)
    if !allowed.isEmpty && allowed.contains nk then
      structuredLoop P target rel_path rule cfg redact rest
    else if !forbidden.isEmpty && !forbidden.contains nk then
      structuredLoop P target rel_path rule cfg redact rest
    else if !value_violates_policy cfg.value_policy v then
      structuredLoop P target rel_path rule cfg redact rest
    else
      structuredFinding P target rel_path rule redact k v ::
        structuredLoop P target rel_path rule cfg redact rest

/-- Embedding of `_eval_structured_rule` (policy.py lines 232-294): a
raising parser or a non-mapping result contributes nothing. -/
def eval_structured_rule (P : Prims) (target rel_path : String) (rule : Rule)
    (text : String) (parser : StructuredParser) (redact : Bool) : List Finding :=
  match rule.structured with
  | none => []
  | some cfg =>
    match parser text with
    | .raised => []
    | .nonDict => []
    | .dict entries => structuredLoop P target rel_path rule cfg redact entries

/-- Per-rule dispatch inside `evaluate_file` (policy.py lines 43-72). -/
def evalRuleOnCandidate (P : Prims) (target_name : String)
    (candidate : FileCandidate) (config : ScanConfig)
    (read_text : FileCandidate → Option String)
    (structured_parsers : Option (List (String × StructuredParser)))
    (rel : String) (rule : Rule) : List Finding :=
  if !is_path_included P rel rule.include_globs rule.exclude then []
  else if !rule.allow_paths.isEmpty && any_glob_match P rel rule.allow_paths then []
  else
    match rule.type with
    | RuleType.filename => eval_filename_rule P target_name rel rule
    | RuleType.regex =>
      let text := read_text candidate
      if textFalsy text then []
      else eval_regex_rule P target_name rel rule (text.getD "") config.redact
    | RuleType.structured =>
      match rule.structured with
      | none => []
      | some cfg =>
        match structured_parsers with
        | none => []
        | some parsers =>
          if parsers.isEmpty then []
          else
            match parsers.lookup cfg.format with
            | none => []
            | some parser =>
              let text := read_text candidate
              if textFalsy text then []
              else eval_structured_rule P target_name rel rule (text.getD "")
                parser config.redact

/-- Rule loop of `evaluate_file`: findings of every enabled rule, in rule
order. -/
def evalRules (P : Prims) (target_name : String) (candidate : FileCandidate)
    (config : ScanConfig) (read_text : FileCandidate → Option String)
    (structured_parsers : Option (List (String × StructuredParser)))
    (rel : String) : List Rule → List Finding
  | [] => []
  | rule :: rest =>
    evalRuleOnCandidate P target_name candidate config read_text
        structured_parsers rel rule ++
      evalRules P target_name candidate config read_text structured_parsers
        rel rest

/-- Embedding of `evaluate_file` (policy.py lines 24-74). -/
def evaluate_file (P : Prims) (target_name : String) (candidate : FileCandidate)
    (ruleset : RuleSet) (config : ScanConfig)
    (read_text : FileCandidate → Option String)
    (structured_parsers : Option (List (String × StructuredParser))) :
    List Finding :=
  evalRules P target_name candidate config read_text structured_parsers
    (normalize_rel_path candidate.rel_path) ruleset.enabledRules

/-! ### Embedding of `scout/core/engine.py` -/

/-- Python `str(f.line or "")`: `None` and `0` are falsy and render as the
empty string, a positive line number renders in decimal. -/
def lineStr (line : Option Nat) : String :=
  match line with
  | none => ""
  | some n => if n = 0 then "" else toString n

/-- Deduplication key of `_dedupe_findings` (engine.py lines 42-49):
`(target, file, rule_id, str(line or ""), str(match_hash or ""))`. -/
def dedupeKey (f : Finding) : String × String × String × String × String :=
  (f.target, f.file, f.rule_id, lineStr f.line, f.match_hash.getD "")

/-- Sort key of `_dedupe_findings` (engine.py line 56):
`(file or "", rule_id or "", line or 0, match_hash or "")` under the
lexicographic tuple order (`or ""` is the identity on strings). -/
def sortKey (f : Finding) :
    Lex (List Char × Lex (List Char × Lex (Nat × List Char))) :=
  toLex (f.file.data,
    toLex (f.rule_id.data, toLex (f.line.getD 0, (f.match_hash.getD "").data)))

/-- Boolean comparison used to sort findings. -/
def sortLe (f g : Finding) : Bool :=
  decide (sortKey f ≤ sortKey g)

/-- Seen-set loop of `_dedupe_findings` (engine.py lines 42-53): keep the
first occurrence of each key. -/
def dedupeGo : List Finding → List (String × String × String × String × String) →
    List Finding
  | [], _ => []
  | f :: rest, seen =>
    if dedupeKey f ∈ seen then dedupeGo rest seen
    else f :: dedupeGo rest (dedupeKey f :: seen)

/-- Embedding of `_dedupe_findings` (engine.py lines 34-57): dedupe, then a
stable sort by `sortKey`. -/
def dedupe_findings (findings : List Finding) : List Finding :=
  (dedupeGo findings []).mergeSort sortLe

/-- Outcome of the per-candidate loop of `run_scan`: the three skip/scan
counters plus collected findings and errors. -/
structure LoopOut where
  files_scanned : Nat
  files_skipped_binary : Nat
  files_skipped_too_large : Nat
  findings : List Finding
  errors : List ScanError
deriving DecidableEq

/-- Per-candidate loop of `run_scan` (engine.py lines 91-121).  The
evaluator is abstracted as an `Except`-valued function so that the source's
`try/except` around the per-file evaluation is expressible; `run_scan`
instantiates it with `evaluate_file`.  A binary candidate is counted before
the size check, and `files_scanned` is incremented before the evaluator
runs, so an evaluator exception still counts the file as scanned. -/
def scanLoop (config : ScanConfig) (target_name : String)
    (ev : FileCandidate → Except String (List Finding)) :
    List FileCandidate → LoopOut
  | [] => ⟨0, 0, 0, [], []⟩
  | c :: rest =>
    let r := scanLoop config target_name ev rest
    if c.is_binary then
      { r with files_skipped_binary := r.files_skipped_binary + 1 }
    else if config.max_file_bytes < c.size_bytes then
      { r with files_skipped_too_large := r.files_skipped_too_large + 1 }
    else
      match ev c with
      | Except.ok nf =>
        { r with files_scanned := r.files_scanned + 1, findings := nf ++ r.findings }
      | Except.error e =>
        { r with files_scanned := r.files_scanned + 1,
                 errors := ⟨target_name, "Failed scanning file: " ++ c.rel_path, e⟩ :: r.errors }

/-- An optional baseline suppressor; `Except.error` models a raised
exception carrying its text. -/
def Baseline := List Finding → Except String (List Finding)

/-- Candidate ordering of `run_scan` (engine.py lines 78-80): under
`config.deterministic` the materialized candidates are sorted by relative
path (`c.rel_path or ""` is the identity on strings). -/
def candOrder (config : ScanConfig) (candidates : List FileCandidate) :
    List FileCandidate :=
  if config.deterministic then
    candidates.mergeSort (fun a b => decide (a.rel_path.data ≤ b.rel_path.data))
  else candidates

/-- Body of `run_scan` (engine.py lines 60-143) over an abstract
per-candidate evaluator: deterministic candidate ordering, the candidate
loop, optional baseline suppression (a baseline exception appends one
`ScanError` and leaves the findings untouched), optional deduplication, and
result assembly. -/
def run_scan_with (target : ScanTarget) (candidates : List FileCandidate)
    (config : ScanConfig) (ev : FileCandidate → Except String (List Finding))
    (baseline : Option Baseline) (dedupe : Bool) : ScanResult :=
  let cand_list := candOrder config candidates
  let lo := scanLoop config target.name ev cand_list
  let afterBaseline : List Finding × List ScanError :=
    match baseline with
    | none => (lo.findings, lo.errors)
    | some b =>
      match b lo.findings with
      | Except.ok fs => (fs, lo.errors)
      | Except.error e =>
        (lo.findings, lo.errors ++ [⟨target.name, "Baseline suppression failed", e⟩])
  let final := if dedupe then dedupe_findings afterBaseline.1 else afterBaseline.1
  { targets := [target],
    findings := final,
    errors := afterBaseline.2,
    stats := { files_considered := cand_list.length,
               files_scanned := lo.files_scanned,
               files_skipped_binary := lo.files_skipped_binary,
               files_skipped_too_large := lo.files_skipped_too_large,
               findings := final.length } }

/-- Embedding of `run_scan` (engine.py lines 60-143), instantiating the
per-candidate evaluator with `evaluate_file`. -/
def run_scan (P : Prims) (target : ScanTarget) (candidates : List FileCandidate)
    (ruleset : RuleSet) (config : ScanConfig)
    (read_text : FileCandidate → Option String) (baseline : Option Baseline)
    (structured_parsers : Option (List (String × StructuredParser)))
    (dedupe : Bool) : ScanResult :=
  run_scan_with target candidates config
    (fun c => Except.ok
      (evaluate_file P target.name c ruleset config read_text structured_parsers))
    baseline dedupe

/-! ### Embedding of `scout/rules/validators.py` -/

/-- The distinct failures raised as `RuleValidationError` (and, for a
tag/payload mismatch, the source's `assert`). -/
inductive RuleValidationError where
  | duplicateIds (dups : List String)
  | invalidRegex (context : String)
  | overlappingKeys (id : String) (overlap : List String)
  | assertionFailed (id : String)
deriving DecidableEq

/-- The repeated ids collected by `_ensure_unique_ids` (validators.py lines
86-94), in scan order (the source sorts them only for the message text). -/
def dupIds : List Rule → List String → List String
  | [], _ => []
  | r :: rest, seen =>
    if seen.contains r.id then r.id :: dupIds rest (r.id :: seen)
    else dupIds rest (r.id :: seen)

/-- Embedding of `_ensure_unique_ids`. -/
def ensure_unique_ids (rules : List Rule) : Except RuleValidationError Unit :=
  let dups := dupIds rules []
  if dups.isEmpty then Except.ok () else Except.error (.duplicateIds dups)

/-- Embedding of `_norm_keys` (validators.py lines 106-109). -/
def norm_keys (keys : List String) (case_insensitive : Bool) : List String :=
  if !case_insensitive then keys else keys.map pyUpper

/-- Per-rule body of the `validate_rules` loop (validators.py lines 24-66),
abstracted over a regex-compilation oracle `compileOk pattern multiline`
(`IGNORECASE` is always set; `multiline` adds `MULTILINE | DOTALL`).
Disabled rules are skipped entirely.  The `Unknown rule type` branch is
unreachable with the closed `RuleType` enum. -/
def validate_one (compileOk : String → Bool → Bool) (r : Rule) :
    Except RuleValidationError Unit :=
  if !r.enabled then Except.ok ()
  else if r.allow_regexes.any (fun arx => !compileOk arx false) then
    Except.error (.invalidRegex (r.id ++ ".allow_regexes"))
  else
    match r.type with
    | RuleType.filename =>
      match r.filename with
      | none => Except.error (.assertionFailed r.id)
      | some fr =>
        if fr.pattern_type = "regex" && !compileOk fr.pattern false then
          Except.error (.invalidRegex (r.id ++ ".filename.pattern"))
        else Except.ok ()
    | RuleType.regex =>
      match r.regex with
      | none => Except.error (.assertionFailed r.id)
      | some rc =>
        if !compileOk rc.regex rc.multiline then
          Except.error (.invalidRegex (r.id ++ ".regex.regex"))
        else Except.ok ()
    | RuleType.structured =>
      match r.structured with
      | none => Except.error (.assertionFailed r.id)
      | some sc =>
        let fk := norm_keys sc.forbidden_keys sc.case_insensitive_keys
        let ak := norm_keys sc.allowed_keys sc.case_insensitive_keys
        let overlap := fk.filter (fun k => ak.contains k)
        if overlap.isEmpty then Except.ok ()
        else Except.error (.overlappingKeys r.id overlap)

/-- Rule loop of `validate_rules`: stop at the first failing rule. -/
def validate_all (compileOk : String → Bool → Bool) :
    List Rule → Except RuleValidationError Unit
  | [] => Except.ok ()
  | r :: rest =>
    match validate_one compileOk r with
    | Except.ok _ => validate_all compileOk rest
    | Except.error e => Except.error e

/-- Embedding of `validate_rules` (validators.py lines 19-66): duplicate-id
check over all rules first, then the per-rule checks for enabled rules. -/
def validate_rules (compileOk : String → Bool → Bool) (rules : List Rule) :
    Except RuleValidationError Unit :=
  match ensure_unique_ids rules with
  | Except.error e => Except.error e
  | Except.ok _ => validate_all compileOk rules

/-! ### Embedding of `scout/scanners/github/scan.py` -/

/-- Repository descriptor returned by the provider client
(`scout/scanners/github/api.py` lines 13-25). -/
structure RepoInfo where
  id : Nat
  name : String
  full_name : String
  clone_url : String
  ssh_url : String
  html_url : String
  private_repo : Bool
  fork : Bool
  archived : Bool
  disabled : Bool
  default_branch : String
  owner_login : String
deriving DecidableEq

/-- The `ScanResult` built by the `except` branch of `scan_github`
(scan.py lines 172-179) for a repository whose clone-and-scan task raised
`e`. -/
def ghErrorResult (full_name : String) (e : String) : ScanResult :=
  { targets := [{ name := full_name, kind := TargetKind.github, root_path := "",
                  meta := [("scanner", "github")] }],
    findings := [],
    errors := [⟨full_name, "GitHub repo scan failed", e⟩],
    stats := {} }

/-- Per-future handling of `scan_github` (scan.py lines 167-179): a
successful task contributes its `ScanResult`, a raising task contributes
`ghErrorResult`. -/
def repoOutcome (task : RepoInfo → Except String ScanResult) (r : RepoInfo) :
    ScanResult :=
  match task r with
  | Except.ok res => res
  | Except.error e => ghErrorResult r.full_name e

/-- Result collection of `scan_github`: one `ScanResult` per selected
repository.  The thread pool delivers completed futures in an unspecified
order; this sequential model fixes the submission order as the
linearization (the claims below do not constrain the order). -/
def scan_github_results (task : RepoInfo → Except String ScanResult)
    (repos : List RepoInfo) : List ScanResult :=
  repos.map (repoOutcome task)

/-! ### Helper lemmas -/

lemma mk_length (l : List Char) : (String.mk l).length = l.length := rfl

lemma mk_data (l : List Char) : (String.mk l).data = l := rfl

lemma string_eq_iff (s t : String) : s = t ↔ s.data = t.data := by
  constructor
  · intro h; rw [h]
  · intro h; cases s; cases t; simp only [mk_data] at h; rw [h]

lemma dropWhile_idem (p : Char → Bool) (l : List Char) :
    List.dropWhile p (List.dropWhile p l) = List.dropWhile p l := by
  induction l with
  | nil => simp
  | cons a t ih =>
    by_cases h : p a
    · simpa [List.dropWhile_cons, h] using ih
    · simp [List.dropWhile_cons, h]

/-- Right trim used by `pyStrip`. -/
def trimR (p : Char → Bool) (l : List Char) : List Char :=
  (l.reverse.dropWhile p).reverse

lemma trimR_idem (p : Char → Bool) (l : List Char) :
    trimR p (trimR p l) = trimR p l := by
  simp [trimR, dropWhile_idem]

lemma trimR_prefix (p : Char → Bool) (l : List Char) : trimR p l <+: l := by
  have h := List.dropWhile_suffix (l := l.reverse) (p := p)
  have h2 := h.reverse
  simpa [trimR] using h2

lemma dropWhile_trimR (p : Char → Bool) (l : List Char)
    (hl : List.dropWhile p l = l) : List.dropWhile p (trimR p l) = trimR p l := by
  obtain ⟨t, ht⟩ := trimR_prefix p l
  cases htr : trimR p l with
  | nil => simp
  | cons a s =>
    rw [htr] at ht
    have : l = a :: (s ++ t) := by simpa using ht.symm
    have hpa : ¬ p a = true := by
      intro hpa
      have h3 : l = List.dropWhile p (s ++ t) := by
        conv_lhs => rw [← hl, this]
        simp [List.dropWhile_cons, hpa]
      have h4 : (List.dropWhile p (s ++ t)).length ≤ (s ++ t).length :=
        (List.dropWhile_sublist _).length_le
      have h5 : l.length = (s ++ t).length + 1 := by rw [this]; simp
      have h6 : l.length = (List.dropWhile p (s ++ t)).length := by rw [h3]
      omega
    simp [List.dropWhile_cons, hpa]

lemma pyStrip_data (s : String) :
    (pyStrip s).data = trimR isPySpace (List.dropWhile isPySpace s.data) := by
  simp [pyStrip, trimR, mk_data]

lemma pyStrip_idem (s : String) : pyStrip (pyStrip s) = pyStrip s := by
  rw [string_eq_iff, pyStrip_data, pyStrip_data]
  set m := List.dropWhile isPySpace s.data with hm
  have h1 : List.dropWhile isPySpace m = m := by
    rw [hm]; exact dropWhile_idem _ _
  rw [dropWhile_trimR _ _ h1, trimR_idem]

/-! ### C2 — `redact_value` -/

/-- C2, counterexample: the claim as stated is false, because
`redact_value` strips its input before measuring it.  A string of twelve
spaces is neither empty nor of length at most `2*keep+2 = 10`, yet the
function returns `***REDACTED***` (the claim instead demands the first
four characters, U+2026, and the last four characters of the input). -/
theorem redact_value_claim_counterexample :
    redact_value (String.mk (List.replicate 12 ' ')) 4 = "***REDACTED***" ∧
      ¬(String.mk (List.replicate 12 ' ') = "" ∨
        (String.mk (List.replicate 12 ' ')).length ≤ 2 * 4 + 2) := by
  decide

/-- C2 (corrected): with `keep = 4`, `redact_value v` returns
`***REDACTED***` exactly when the whitespace-trimmed `v` is empty or has
length at most `2*keep+2`; for a longer trimmed value the result has nine
characters: the first four characters of the trimmed value, then U+2026 at
position 4, then its last four characters, all preserved unchanged. -/
theorem redact_value_trimmed_spec (v : String) :
    (redact_value v 4 = "***REDACTED***" ↔ (pyStrip v).length ≤ 10) ∧
    (10 < (pyStrip v).length →
      (redact_value v 4).length = 9 ∧
      (redact_value v 4).data.take 4 = (pyStrip v).data.take 4 ∧
      (redact_value v 4).data[4]? = some '…' ∧
      (redact_value v 4).data.drop 5 =
        (pyStrip v).data.drop ((pyStrip v).data.length - 4)) := by
  have hlen : (pyStrip v).length = (pyStrip v).data.length := rfl
  by_cases hs : pyStrip v = ""
  · constructor
    · simp [redact_value, hs]
    · intro h
      rw [hs] at h
      simp at h
  · by_cases hle : (pyStrip v).length ≤ 10
    · constructor
      · simp [redact_value, hs, hle]
      · intro h; omega
    · have h10 : 10 < (pyStrip v).data.length := by omega
      have htake : ((pyStrip v).data.take 4).length = 4 := by
        rw [List.length_take]; omega
      have hdrop : ((pyStrip v).data.drop ((pyStrip v).data.length - 4)).length = 4 := by
        rw [List.length_drop]; omega
      have hred : redact_value v 4 =
          String.mk ((pyStrip v).data.take 4 ++
            '…' :: (pyStrip v).data.drop ((pyStrip v).data.length - 4)) := by
        simp only [redact_value]
        rw [if_neg hs, if_neg (by omega)]
      constructor
      · constructor
        · intro h
          have := congrArg String.length h
          rw [hred] at this
          simp only [mk_length, List.length_append, List.length_cons, htake, hdrop] at this
          exact absurd this (by decide)
        · intro h; omega
      · intro _
        refine ⟨?_, ?_, ?_, ?_⟩
        · rw [hred]
          simp only [mk_length, List.length_append, List.length_cons, htake, hdrop]
        · rw [hred, mk_data, List.take_append_of_le_length (by omega),
            List.take_take]
          congr 1
        · rw [hred, mk_data, List.getElem?_append_right (by omega), htake]
          simp
        · rw [hred, mk_data]
          have h5 : 5 = ((pyStrip v).data.take 4).length + 1 := by omega
          rw [h5, ← List.drop_drop, List.drop_left]
          simp

/-- C2, witness for the corrected claim at a concrete input with
surrounding whitespace. -/
theorem redact_value_trimmed_spec_witness :
    10 < (pyStrip "  secretvalue123  ").length ∧
      (redact_value "  secretvalue123  " 4).data.take 4 =
        (pyStrip "  secretvalue123  ").data.take 4 :=
  ⟨by decide, ((redact_value_trimmed_spec "  secretvalue123  ").2 (by decide)).2.1⟩

/-! ### C8 — plaintext value policy -/

lemma looks_plaintext_iff (x : String) :
    looks_plaintext_secret x = true ↔
      (12 ≤ (pyStrip x).length ∧
       ¬(pyStartsWith (pyStrip x) "$\x7b" = true ∨ pyStartsWith (pyStrip x) "$" = true ∨
         pyStartsWith (pyStrip x) "vault://" = true) ∧
       (∃ c ∈ (pyStrip x).data, c.isAlpha = true) ∧
       (∃ c ∈ (pyStrip x).data, c.isDigit = true ∨ plaintextSymbols.contains c = true)) := by
  have hlen : (pyStrip x).length = (pyStrip x).data.length := rfl
  by_cases h1 : pyStrip x = ""
  · have h0 : (pyStrip x).length = 0 := by rw [h1]; rfl
    simp only [looks_plaintext_secret, h1, if_pos rfl]
    constructor
    · intro h; exact absurd h (by decide)
    · intro h; exact absurd h.1 (by decide)
  · by_cases h2 : (pyStartsWith (pyStrip x) "$\x7b" ||
        pyStartsWith (pyStrip x) "$" || pyStartsWith (pyStrip x) "vault://") = true
    · simp only [looks_plaintext_secret, if_neg h1, if_pos h2]
      constructor
      · intro h; exact absurd h (by decide)
      · intro h
        rcases Bool.or_eq_true _ _ |>.mp h2 with h' | h'
        · rcases Bool.or_eq_true _ _ |>.mp h' with h'' | h''
          · exact absurd (Or.inl h'') h.2.1
          · exact absurd (Or.inr (Or.inl h'')) h.2.1
        · exact absurd (Or.inr (Or.inr h')) h.2.1
    · by_cases h3 : (pyStrip x).length < 12
      · simp only [looks_plaintext_secret, if_neg h1, if_neg h2, if_pos h3]
        constructor
        · intro h; exact absurd h (by decide)
        · intro h; omega
      · simp only [looks_plaintext_secret, if_neg h1, if_neg h2, if_neg h3]
        rw [Bool.and_eq_true, List.any_eq_true, List.any_eq_true]
        constructor
        · rintro ⟨ha, hb⟩
          refine ⟨by omega, ?_, ?_, ?_⟩
          · intro hc
            apply h2
            rcases hc with h' | h' | h' <;> simp [h']
          · exact ha
          · obtain ⟨c, hc, hcp⟩ := hb
            exact ⟨c, hc, Bool.or_eq_true _ _ |>.mp hcp⟩
        · rintro ⟨_, _, ha, c, hc, hcp⟩
          refine ⟨ha, ⟨c, hc, ?_⟩⟩
          rw [Bool.or_eq_true]
          rcases hcp with h' | h'
          · exact Or.inl h'
          · exact Or.inr h'

/-- C8 (confirmed): the plaintext value policy flags a value exactly when
the trimmed string rendering has length at least 12, does not start with
`${`, `$`, or `vault://`, and contains at least one letter and at least
one character that is a digit or one of `_-+/=.`. -/
theorem plaintext_policy_spec (v : PyVal) :
    value_violates_policy ValuePolicy.plaintext v = true ↔
      (12 ≤ (pyStrip (pyStr v)).length ∧
       ¬(pyStartsWith (pyStrip (pyStr v)) "$\x7b" = true ∨
         pyStartsWith (pyStrip (pyStr v)) "$" = true ∨
         pyStartsWith (pyStrip (pyStr v)) "vault://" = true) ∧
       (∃ c ∈ (pyStrip (pyStr v)).data, c.isAlpha = true) ∧
       (∃ c ∈ (pyStrip (pyStr v)).data, c.isDigit = true ∨
         plaintextSymbols.contains c = true)) := by
  cases v with
  | vnone => decide
  | vstr str =>
    have hL : value_violates_policy ValuePolicy.plaintext (PyVal.vstr str) =
        looks_plaintext_secret (pyStrip str) := by
      simp [value_violates_policy, pyStr]
    rw [hL, looks_plaintext_iff, pyStrip_idem]
    exact Iff.rfl

/-! ### C10 — `validate_rules` and disabled rules -/

lemma validate_all_disabled (compileOk : String → Bool → Bool) :
    ∀ rules : List Rule, (∀ r ∈ rules, r.enabled = false) →
      validate_all compileOk rules = Except.ok () := by
  intro rules
  induction rules with
  | nil => intro _; rfl
  | cons a t ih =>
    intro hall
    have ha : validate_one compileOk a = Except.ok () := by
      unfold validate_one
      simp [hall a (by simp)]
    unfold validate_all
    rw [ha]
    exact ih (fun r' hr' => hall r' (by simp [hr']))

/-- C10 (confirmed): `validate_rules` fails with a duplicate-id error even
when the rules are all disabled, while disabled rules are exempt from every
per-rule check: `validate_one` accepts any disabled rule no matter whether
its regexes compile or its forbidden/allowed keys overlap, so a duplicate-
free, fully disabled rule list always validates, for every compile
oracle. -/
theorem validate_rules_disabled_spec (compileOk : String → Bool → Bool)
    (rules : List Rule) (r : Rule) :
    (dupIds rules [] ≠ [] →
      validate_rules compileOk rules =
        Except.error (RuleValidationError.duplicateIds (dupIds rules []))) ∧
    (r.enabled = false → validate_one compileOk r = Except.ok ()) ∧
    (dupIds rules [] = [] → (∀ r' ∈ rules, r'.enabled = false) →
      validate_rules compileOk rules = Except.ok ()) := by
  refine ⟨?_, ?_, ?_⟩
  · intro h
    have he : ensure_unique_ids rules =
        Except.error (RuleValidationError.duplicateIds (dupIds rules [])) := by
      unfold ensure_unique_ids
      rw [if_neg]
      simpa [List.isEmpty_iff] using h
    unfold validate_rules
    rw [he]
  · intro h
    unfold validate_one
    simp [h]
  · intro hdup hall
    have he : ensure_unique_ids rules = Except.ok () := by
      unfold ensure_unique_ids
      rw [if_pos]
      simpa [List.isEmpty_iff] using hdup
    unfold validate_rules
    rw [he]
    exact validate_all_disabled compileOk rules hall

/-- A disabled rule repeated twice: its id collides although it never
runs. -/
def cDisabledDup : Rule :=
  { id := "dup", severity := Severity.high, enabled := false,
    type := RuleType.filename }

/-- A disabled rule whose regexes do not compile and whose structured keys
overlap. -/
def cDisabledBad : Rule :=
  { id := "bad", severity := Severity.low, enabled := false,
    allow_regexes := ["("],
    type := RuleType.regex,
    regex := some { regex := "(", multiline := false,
                    scope := MatchScope.line, max_matches := 5 },
    structured := some { format := "json", forbidden_keys := ["K"],
                         allowed_keys := ["K"], case_insensitive_keys := true,
                         value_policy := ValuePolicy.any } }

/-- C10, witness: duplicate disabled ids are rejected; a disabled rule
passes `validate_one` and `validate_rules` under an oracle that rejects
every pattern. -/
theorem validate_rules_disabled_spec_witness :
    (dupIds [cDisabledDup, cDisabledDup] [] ≠ [] ∧
      validate_rules (fun _ _ => false) [cDisabledDup, cDisabledDup] =
        Except.error (RuleValidationError.duplicateIds
          (dupIds [cDisabledDup, cDisabledDup] []))) ∧
    (cDisabledBad.enabled = false ∧
      validate_one (fun _ _ => false) cDisabledBad = Except.ok ()) ∧
    (dupIds [cDisabledBad] [] = [] ∧
      validate_rules (fun _ _ => false) [cDisabledBad] = Except.ok ()) :=
  ⟨⟨by decide,
    (validate_rules_disabled_spec (fun _ _ => false) [cDisabledDup, cDisabledDup]
      cDisabledBad).1 (by decide)⟩,
   ⟨by decide,
    (validate_rules_disabled_spec (fun _ _ => false) [] cDisabledBad).2.1 (by decide)⟩,
   ⟨by decide,
    (validate_rules_disabled_spec (fun _ _ => false) [cDisabledBad]
      cDisabledBad).2.2 (by decide) (by decide)⟩⟩

/-! ### C6 — `scan_github` per-repository results -/

/-- C6 (confirmed): `scan_github` produces one `ScanResult` per selected
repository, and a repository whose clone-and-scan task raises yields a
result with no findings, an empty target root path, and exactly one
`ScanError` whose message is `GitHub repo scan failed` and whose detail is
the exception text. -/
theorem scan_github_error_results (task : RepoInfo → Except String ScanResult)
    (repos : List RepoInfo) :
    (scan_github_results task repos).length = repos.length ∧
    (∀ (i : Nat) (r : RepoInfo) (e : String), repos[i]? = some r →
      task r = Except.error e →
      (scan_github_results task repos)[i]? = some (ghErrorResult r.full_name e) ∧
      (ghErrorResult r.full_name e).findings = [] ∧
      (ghErrorResult r.full_name e).errors =
        [⟨r.full_name, "GitHub repo scan failed", e⟩] ∧
      (ghErrorResult r.full_name e).targets.map ScanTarget.root_path = [""]) := by
  refine ⟨by simp [scan_github_results], ?_⟩
  intro i r e hi ht
  refine ⟨?_, rfl, rfl, rfl⟩
  simp [scan_github_results, hi, repoOutcome, ht]

/-- A concrete repository descriptor for the witness. -/
def cRepo : RepoInfo :=
  { id := 1, name := "repo", full_name := "owner/repo", clone_url := "u",
    ssh_url := "s", html_url := "h", private_repo := false, fork := false,
    archived := false, disabled := false, default_branch := "main",
    owner_login := "owner" }

/-- C6, witness: a failing task at index 0 produces the error result. -/
theorem scan_github_error_results_witness :
    ([cRepo][0]? = some cRepo) ∧
    (scan_github_results (fun _ => Except.error "boom") [cRepo])[0]? =
      some (ghErrorResult cRepo.full_name "boom") :=
  ⟨rfl,
   ((scan_github_error_results (fun _ => Except.error "boom") [cRepo]).2
     0 cRepo "boom" rfl rfl).1⟩

/-! ### C4 — deduplication and stable ordering -/

lemma dedupeGo_mem :
    ∀ (l : List Finding) (seen : List (String × String × String × String × String))
      (f : Finding), f ∈ dedupeGo l seen →
      dedupeKey f ∉ seen ∧
        l.find? (fun g => decide (dedupeKey g = dedupeKey f)) = some f := by
  intro l
  induction l with
  | nil => intro seen f h; simp [dedupeGo] at h
  | cons a t ih =>
    intro seen f h
    by_cases ha : dedupeKey a ∈ seen
    · rw [dedupeGo, if_pos ha] at h
      obtain ⟨hn, hf⟩ := ih seen f h
      have hne : ¬(dedupeKey a = dedupeKey f) := fun he => hn (he ▸ ha)
      refine ⟨hn, ?_⟩
      rw [List.find?_cons_of_neg _ (by simpa using hne)]
      exact hf
    · rw [dedupeGo, if_neg ha] at h
      rcases List.mem_cons.mp h with rfl | hmem
      · exact ⟨ha, by rw [List.find?_cons_of_pos _ (by simp)]⟩
      · obtain ⟨hn, hf⟩ := ih (dedupeKey a :: seen) f hmem
        have hne : ¬(dedupeKey a = dedupeKey f) := by
          intro he
          exact hn (by rw [← he]; exact List.mem_cons_self _ _)
        refine ⟨fun hc => hn (List.mem_cons_of_mem _ hc), ?_⟩
        rw [List.find?_cons_of_neg _ (by simpa using hne)]
        exact hf

lemma dedupeGo_pairwise :
    ∀ (l : List Finding) (seen : List (String × String × String × String × String)),
      (dedupeGo l seen).Pairwise (fun f g => dedupeKey f ≠ dedupeKey g) := by
  intro l
  induction l with
  | nil => intro seen; simp [dedupeGo]
  | cons a t ih =>
    intro seen
    by_cases ha : dedupeKey a ∈ seen
    · rw [dedupeGo, if_pos ha]; exact ih seen
    · rw [dedupeGo, if_neg ha]
      refine List.Pairwise.cons ?_ (ih _)
      intro g hg he
      have := (dedupeGo_mem t (dedupeKey a :: seen) g hg).1
      exact this (by rw [← he]; exact List.mem_cons_self _ _)

lemma dedupeGo_complete :
    ∀ (l : List Finding) (seen : List (String × String × String × String × String))
      (f : Finding), f ∈ l →
      dedupeKey f ∈ seen ∨ ∃ g ∈ dedupeGo l seen, dedupeKey g = dedupeKey f := by
  intro l
  induction l with
  | nil => intro seen f h; simp at h
  | cons a t ih =>
    intro seen f h
    rcases List.mem_cons.mp h with rfl | hmem
    · by_cases ha : dedupeKey f ∈ seen
      · exact Or.inl ha
      · exact Or.inr ⟨f, by rw [dedupeGo, if_neg ha]; exact List.mem_cons_self _ _, rfl⟩
    · by_cases ha : dedupeKey a ∈ seen
      · rcases ih seen f hmem with h' | ⟨g, hg, he⟩
        · exact Or.inl h'
        · exact Or.inr ⟨g, by rw [dedupeGo, if_pos ha]; exact hg, he⟩
      · rcases ih (dedupeKey a :: seen) f hmem with h' | ⟨g, hg, he⟩
        · rcases List.mem_cons.mp h' with he | hs
          · exact Or.inr ⟨a, by rw [dedupeGo, if_neg ha]; exact List.mem_cons_self _ _,
              he.symm⟩
          · exact Or.inl hs
        · exact Or.inr ⟨g, by rw [dedupeGo, if_neg ha]; exact List.mem_cons_of_mem _ hg,
            he⟩

lemma sortLe_trans (a b c : Finding) (h1 : sortLe a b = true) (h2 : sortLe b c = true) :
    sortLe a c = true := by
  simp only [sortLe, decide_eq_true_eq] at *
  exact le_trans h1 h2

lemma sortLe_total (a b : Finding) : (sortLe a b || sortLe b a) = true := by
  simp only [sortLe, Bool.or_eq_true, decide_eq_true_eq]
  exact le_total _ _

/-- C4 (confirmed): after `_dedupe_findings` the key
`(target, file, rule_id, str(line or \x22\x22), str(match_hash or \x22\x22))` is
unique across the returned findings; every returned finding is the first
finding of the input carrying its key; every input key is represented; and
the returned list is sorted by the lexicographic key
`(file, rule_id, line or 0, match_hash or \x22\x22)`. -/
theorem dedupe_findings_spec (l : List Finding) :
    ((dedupe_findings l).Pairwise (fun f g => dedupeKey f ≠ dedupeKey g)) ∧
    (∀ f ∈ dedupe_findings l,
      l.find? (fun g => decide (dedupeKey g = dedupeKey f)) = some f) ∧
    (∀ f ∈ l, ∃ g ∈ dedupe_findings l, dedupeKey g = dedupeKey f) ∧
    ((dedupe_findings l).Pairwise (fun f g => sortKey f ≤ sortKey g)) := by
  have hperm : (dedupe_findings l).Perm (dedupeGo l []) :=
    List.mergeSort_perm (dedupeGo l []) sortLe
  refine ⟨?_, ?_, ?_, ?_⟩
  · exact (hperm.pairwise_iff (fun hxy he => hxy he.symm)).mpr (dedupeGo_pairwise l [])
  · intro f hf
    exact (dedupeGo_mem l [] f (hperm.mem_iff.mp hf)).2
  · intro f hf
    rcases dedupeGo_complete l [] f hf with h' | ⟨g, hg, he⟩
    · simp at h'
    · exact ⟨g, hperm.mem_iff.mpr hg, he⟩
  · have hs := List.sorted_mergeSort sortLe_trans sortLe_total (dedupeGo l [])
    exact hs.imp (fun h => by simpa [sortLe, decide_eq_true_eq] using h)

/-! ### C3 — binary/oversize candidates are never evaluated -/

lemma scanLoop_counts (config : ScanConfig) (tname : String)
    (ev : FileCandidate → Except String (List Finding))
    (cands : List FileCandidate) :
    (scanLoop config tname ev cands).files_skipped_binary =
      cands.countP (fun c => c.is_binary) ∧
    (scanLoop config tname ev cands).files_skipped_too_large =
      cands.countP (fun c => !c.is_binary && decide (config.max_file_bytes < c.size_bytes)) ∧
    (scanLoop config tname ev cands).files_scanned =
      cands.countP (fun c => !c.is_binary && decide (c.size_bytes ≤ config.max_file_bytes)) := by
  induction cands with
  | nil => exact ⟨rfl, rfl, rfl⟩
  | cons c rest ih =>
    obtain ⟨i1, i2, i3⟩ := ih
    by_cases hb : c.is_binary
    · refine ⟨?_, ?_, ?_⟩ <;> simp [scanLoop, hb, List.countP_cons, i1, i2, i3]
    · have hb' : c.is_binary = false := by simpa using hb
      by_cases hsz : config.max_file_bytes < c.size_bytes
      · have hnle : ¬(c.size_bytes ≤ config.max_file_bytes) := by omega
        refine ⟨?_, ?_, ?_⟩ <;>
          simp [scanLoop, hb', hsz, hnle, List.countP_cons, i1, i2, i3]
      · have hle : c.size_bytes ≤ config.max_file_bytes := by omega
        cases hev : ev c with
        | ok nf =>
          refine ⟨?_, ?_, ?_⟩ <;>
            simp [scanLoop, hb', hsz, hle, hev, List.countP_cons, i1, i2, i3]
        | error e =>
          refine ⟨?_, ?_, ?_⟩ <;>
            simp [scanLoop, hb', hsz, hle, hev, List.countP_cons, i1, i2, i3]

lemma scanLoop_congr (config : ScanConfig) (tname : String)
    (ev ev' : FileCandidate → Except String (List Finding)) :
    ∀ cands : List FileCandidate,
      (∀ c ∈ cands, c.is_binary = false → c.size_bytes ≤ config.max_file_bytes →
        ev c = ev' c) →
      scanLoop config tname ev cands = scanLoop config tname ev' cands := by
  intro cands
  induction cands with
  | nil => intro _; rfl
  | cons c rest ih =>
    intro h
    have hrest : scanLoop config tname ev rest = scanLoop config tname ev' rest :=
      ih (fun c' hc' => h c' (List.mem_cons_of_mem _ hc'))
    by_cases hb : c.is_binary
    · simp [scanLoop, hb, hrest]
    · have hb' : c.is_binary = false := by simpa using hb
      by_cases hsz : config.max_file_bytes < c.size_bytes
      · simp [scanLoop, hb', hsz, hrest]
      · have hev : ev c = ev' c :=
          h c (List.mem_cons_self _ _) hb' (by omega)
        simp [scanLoop, hb', hsz, hev, hrest]

/-- C3 (confirmed): in the per-candidate loop of `run_scan`, binary
candidates are counted in `files_skipped_binary`, non-binary candidates
strictly larger than `max_file_bytes` in `files_skipped_too_large`, and
the evaluator runs exactly on candidates with `size_bytes ≤
max_file_bytes` (so a file of exactly `max_file_bytes` is scanned and one
byte more is skipped): the loop's outcome is unchanged by replacing the
evaluator on every skipped candidate. -/
theorem run_scan_skip_policy (config : ScanConfig) (tname : String)
    (ev ev' : FileCandidate → Except String (List Finding))
    (cands : List FileCandidate) :
    (scanLoop config tname ev cands).files_skipped_binary =
      cands.countP (fun c => c.is_binary) ∧
    (scanLoop config tname ev cands).files_skipped_too_large =
      cands.countP (fun c => !c.is_binary && decide (config.max_file_bytes < c.size_bytes)) ∧
    (scanLoop config tname ev cands).files_scanned =
      cands.countP (fun c => !c.is_binary && decide (c.size_bytes ≤ config.max_file_bytes)) ∧
    ((∀ c ∈ cands, c.is_binary = false → c.size_bytes ≤ config.max_file_bytes →
        ev c = ev' c) →
      scanLoop config tname ev cands = scanLoop config tname ev' cands) := by
  obtain ⟨h1, h2, h3⟩ := scanLoop_counts config tname ev cands
  exact ⟨h1, h2, h3, scanLoop_congr config tname ev ev' cands⟩

/-- Engine configuration with a 10-byte cap, for the witness. -/
def cCfg : ScanConfig := { max_file_bytes := 10 }

/-- A binary candidate. -/
def cBinCand : FileCandidate :=
  { path := "b", rel_path := "b", size_bytes := 1, is_binary := true }

/-- A candidate of exactly `max_file_bytes` bytes. -/
def cExactCand : FileCandidate :=
  { path := "e", rel_path := "e", size_bytes := 10, is_binary := false }

/-- A candidate one byte over `max_file_bytes`. -/
def cBigCand : FileCandidate :=
  { path := "g", rel_path := "g", size_bytes := 11, is_binary := false }

/-- An evaluator that never fails. -/
def cEvOk : FileCandidate → Except String (List Finding) := fun _ => Except.ok []

/-- An evaluator that differs from `cEvOk` exactly on candidates the
engine must skip. -/
def cEvAlt : FileCandidate → Except String (List Finding) := fun c =>
  if c.is_binary || decide (cCfg.max_file_bytes < c.size_bytes) then
    Except.error "io"
  else Except.ok []

/-- C3, witness: of the three candidates only the 10-byte one is scanned;
the 11-byte and binary ones are skipped, and the loop's outcome does not
depend on the evaluator's behavior on them. -/
theorem run_scan_skip_policy_witness :
    (scanLoop cCfg "t" cEvOk [cExactCand, cBigCand, cBinCand]).files_skipped_binary = 1 ∧
    (scanLoop cCfg "t" cEvOk [cExactCand, cBigCand, cBinCand]).files_skipped_too_large = 1 ∧
    (scanLoop cCfg "t" cEvOk [cExactCand, cBigCand, cBinCand]).files_scanned = 1 ∧
    scanLoop cCfg "t" cEvOk [cExactCand, cBigCand, cBinCand] =
      scanLoop cCfg "t" cEvAlt [cExactCand, cBigCand, cBinCand] := by
  obtain ⟨h1, h2, h3, h4⟩ :=
    run_scan_skip_policy cCfg "t" cEvOk cEvAlt [cExactCand, cBigCand, cBinCand]
  refine ⟨by rw [h1]; decide, by rw [h2]; decide, by rw [h3]; decide, h4 ?_⟩
  intro c hc hbin hsz
  fin_cases hc
  · rfl
  · exact absurd hsz (by decide)
  · exact absurd hbin (by decide)

/-! ### C7 — baseline suppression failure -/

/-- C7 (confirmed): when the baseline's `suppress` raises, `run_scan`
returns exactly the result of the same scan without a baseline except that
one `ScanError` with message `Baseline suppression failed` and the
exception text is appended to its errors; in particular the findings
(including the subsequent dedupe step) are those computed before baseline
suppression. -/
theorem run_scan_baseline_failure (target : ScanTarget)
    (candidates : List FileCandidate) (config : ScanConfig)
    (ev : FileCandidate → Except String (List Finding)) (b : Baseline)
    (dedupe : Bool) (e : String)
    (hb : b (scanLoop config target.name ev (candOrder config candidates)).findings =
      Except.error e) :
    run_scan_with target candidates config ev (some b) dedupe =
      { run_scan_with target candidates config ev none dedupe with
        errors := (run_scan_with target candidates config ev none dedupe).errors ++
          [⟨target.name, "Baseline suppression failed", e⟩] } := by
  simp only [run_scan_with, hb]

/-- Scan target for the witness. -/
def cTgt : ScanTarget :=
  { name := "t", kind := TargetKind.localTarget, root_path := "/r" }

/-- A baseline whose `suppress` always raises. -/
def cFailBaseline : Baseline := fun _ => Except.error "db locked"

/-- Engine configuration without deterministic ordering, for witnesses
that evaluate `run_scan_with` concretely. -/
def cCfgND : ScanConfig := { max_file_bytes := 10, deterministic := false }

/-- C7, witness: the failing baseline contributes exactly one error and
leaves the findings equal to the no-baseline run. -/
theorem run_scan_baseline_failure_witness :
    (run_scan_with cTgt [cExactCand] cCfgND cEvOk (some cFailBaseline) false).errors =
      [⟨"t", "Baseline suppression failed", "db locked"⟩] ∧
    (run_scan_with cTgt [cExactCand] cCfgND cEvOk (some cFailBaseline) false).findings =
      (run_scan_with cTgt [cExactCand] cCfgND cEvOk none false).findings := by
  have h := run_scan_baseline_failure cTgt [cExactCand] cCfgND cEvOk cFailBaseline
    false "db locked" rfl
  constructor
  · rw [h]
    decide
  · rw [h]

/-! ### C9 — empty text behaves like an unreadable file -/

lemma eval_filename_rule_kind (P : Prims) (t rel : String) (rule : Rule) :
    ∀ f ∈ eval_filename_rule P t rel rule, f.kind = FindingKind.filename := by
  intro f hf
  unfold eval_filename_rule at hf
  cases hfr : rule.filename with
  | none => rw [hfr] at hf; simp at hf
  | some fr =>
    rw [hfr] at hf
    simp only [] at hf
    by_cases hm : (if fr.pattern_type = "glob" then any_glob_match P rel [fr.pattern]
        else P.reSearch fr.pattern false rel) = true
    · rw [if_pos hm] at hf
      rcases List.mem_singleton.mp hf with rfl
      rfl
    · rw [if_neg hm] at hf
      simp at hf

lemma evalRuleOn_empty_text (P : Prims) (tname : String) (cand : FileCandidate)
    (config : ScanConfig) (rt rt' : FileCandidate → Option String)
    (parsers : Option (List (String × StructuredParser))) (rel : String)
    (rule : Rule) (h : rt cand = some "") (h' : rt' cand = none) :
    evalRuleOnCandidate P tname cand config rt parsers rel rule =
      evalRuleOnCandidate P tname cand config rt' parsers rel rule ∧
    ∀ f ∈ evalRuleOnCandidate P tname cand config rt parsers rel rule,
      f.kind = FindingKind.filename := by
  unfold evalRuleOnCandidate
  by_cases h1 : is_path_included P rel rule.include_globs rule.exclude = true
  case neg =>
    have : (!is_path_included P rel rule.include_globs rule.exclude) = true := by
      simp [h1]
    simp [this]
  case pos =>
    by_cases h2 : (!rule.allow_paths.isEmpty && any_glob_match P rel rule.allow_paths) = true
    · simp [h1, h2]
    · simp only [h1, Bool.not_true, Bool.false_eq_true, if_false, h2, if_neg]
      cases htype : rule.type with
      | filename =>
        exact ⟨rfl, eval_filename_rule_kind P tname rel rule⟩
      | regex =>
        rw [h, h']
        refine ⟨rfl, ?_⟩
        intro f hf
        simp [textFalsy] at hf
      | structured =>
        cases rule.structured with
        | none => simp
        | some cfg =>
          cases parsers with
          | none => simp
          | some ps =>
            by_cases hps : ps.isEmpty = true
            · simp [hps]
            · simp only [hps, Bool.false_eq_true, if_neg, if_false]
              cases ps.lookup cfg.format with
              | none => simp
              | some parser =>
                rw [h, h']
                refine ⟨rfl, ?_⟩
                intro f hf
                simp [textFalsy] at hf

lemma evalRules_empty_text (P : Prims) (tname : String) (cand : FileCandidate)
    (config : ScanConfig) (rt rt' : FileCandidate → Option String)
    (parsers : Option (List (String × StructuredParser))) (rel : String)
    (h : rt cand = some "") (h' : rt' cand = none) :
    ∀ rules : List Rule,
      evalRules P tname cand config rt parsers rel rules =
        evalRules P tname cand config rt' parsers rel rules ∧
      ∀ f ∈ evalRules P tname cand config rt parsers rel rules,
        f.kind = FindingKind.filename := by
  intro rules
  induction rules with
  | nil => exact ⟨rfl, by intro f hf; simp [evalRules] at hf⟩
  | cons rule rest ih =>
    obtain ⟨ihe, ihk⟩ := ih
    obtain ⟨he, hk⟩ := evalRuleOn_empty_text P tname cand config rt rt' parsers
      rel rule h h'
    constructor
    · simp only [evalRules, he, ihe]
    · intro f hf
      rcases List.mem_append.mp hf with hf' | hf'
      · exact hk f hf'
      · exact ihk f hf'

/-- C9 (confirmed): a candidate whose reader yields the empty string is
evaluated exactly like one whose reader yields `None`: the regex and
structured branches are skipped, so `evaluate_file` emits only
filename-kind findings for it. -/
theorem evaluate_file_empty_text (P : Prims) (tname : String)
    (cand : FileCandidate) (ruleset : RuleSet) (config : ScanConfig)
    (rt rt' : FileCandidate → Option String)
    (parsers : Option (List (String × StructuredParser)))
    (h : rt cand = some "") (h' : rt' cand = none) :
    evaluate_file P tname cand ruleset config rt parsers =
      evaluate_file P tname cand ruleset config rt' parsers ∧
    ∀ f ∈ evaluate_file P tname cand ruleset config rt parsers,
      f.kind = FindingKind.filename := by
  unfold evaluate_file
  exact evalRules_empty_text P tname cand config rt rt' parsers
    (normalize_rel_path cand.rel_path) h h' ruleset.enabledRules

/-- Matching oracle where every pattern matches, for witnesses. -/
def cPrims : Prims :=
  { fnmatch := fun _ _ => true,
    reSearch := fun _ _ _ => true,
    reFinditer := fun _ _ t => [t],
    stableHash := fun _ => "h" }

/-- A rule set with one filename rule and one line-scoped regex rule. -/
def cRuleset : RuleSet :=
  { rules :=
      [{ id := "fn", severity := Severity.high, enabled := true,
         type := RuleType.filename,
         filename := some { pattern := "x", pattern_type := "glob" } },
       { id := "rx", severity := Severity.high, enabled := true,
         type := RuleType.regex,
         regex := some { regex := "x", multiline := false,
                         scope := MatchScope.line, max_matches := 5 } }] }

/-- C9, witness: with an empty-text reader the evaluation equals the
`None`-reader evaluation and every emitted finding is a filename
finding. -/
theorem evaluate_file_empty_text_witness :
    evaluate_file cPrims "t" cExactCand cRuleset cCfg (fun _ => some "") none =
      evaluate_file cPrims "t" cExactCand cRuleset cCfg (fun _ => none) none ∧
    ∀ f ∈ evaluate_file cPrims "t" cExactCand cRuleset cCfg (fun _ => some "") none,
      f.kind = FindingKind.filename :=
  evaluate_file_empty_text cPrims "t" cExactCand cRuleset cCfg
    (fun _ => some "") (fun _ => none) none rfl rfl

/-! ### C1 — structured rule with `allowed_keys` only -/

/-- Structured payload with `allowed_keys = ["K"]` and no forbidden
keys. -/
def cStructCfg : StructuredRule :=
  { format := "env", forbidden_keys := [], allowed_keys := ["K"],
    case_insensitive_keys := false, value_policy := ValuePolicy.any }

/-- A structured rule carrying `cStructCfg`. -/
def cStructRule : Rule :=
  { id := "st", severity := Severity.high, enabled := true,
    type := RuleType.structured, structured := some cStructCfg }

/-- A parser producing the two-key mapping `{K: v1, X: v2}`. -/
def cParser : StructuredParser :=
  fun _ => ParseOut.dict [("K", PyVal.vstr "v1"), ("X", PyVal.vstr "v2")]

/-- C1, counterexample: with `allowed_keys = {K}` and empty
`forbidden_keys`, the evaluator does emit a structured finding for the
non-allowed key `X` of the mapping (the `must be in forbidden` gate is
skipped when `forbidden_keys` is empty), so the claim that no other key
emits is false. -/
theorem structured_allowed_only_counterexample :
    cStructRule.structured.map StructuredRule.allowed_keys = some ["K"] ∧
    cStructRule.structured.map StructuredRule.forbidden_keys = some [] ∧
    cParser "text" = ParseOut.dict [("K", PyVal.vstr "v1"), ("X", PyVal.vstr "v2")] ∧
    (eval_structured_rule cPrims "t" "f" cStructRule "text" cParser true).map
      Finding.key = [some "X"] :=
  ⟨rfl, rfl, rfl, rfl⟩

lemma structuredLoop_allowed_only (P : Prims) (target rel : String) (rule : Rule)
    (cfg : StructuredRule) (redact : Bool) (K : String)
    (hak : cfg.allowed_keys = [K]) (hfk : cfg.forbidden_keys = []) :
    ∀ entries : List (String × PyVal),
      structuredLoop P target rel rule cfg redact entries =
        (entries.filter (fun kv =>
          !(normKey cfg kv.1 == normKey cfg K) &&
            value_violates_policy cfg.value_policy kv.2)).map
          (fun kv => structuredFinding P target rel rule redact kv.1 kv.2) := by
  intro entries
  induction entries with
  | nil => rfl
  | cons kv rest ih =>
    obtain ⟨k, v⟩ := kv
    by_cases hk : normKey cfg k = normKey cfg K
    · simp [structuredLoop, hak, hfk, List.filter_cons, hk, ih]
    · by_cases hv : value_violates_policy cfg.value_policy v = true
      · simp [structuredLoop, hak, hfk, List.filter_cons, hk, hv, ih]
      · simp [structuredLoop, hak, hfk, List.filter_cons, hk, hv, ih]

/-- C1 (corrected): with `allowed_keys = {K}` and empty `forbidden_keys`,
key `K` is suppressed — no emitted finding carries it — but the other keys
of the mapping are not: each key whose normalization differs from `K`'s
emits a structured finding exactly when the value policy flags its value,
because the `must be in forbidden` gate is skipped when `forbidden_keys`
is empty. -/
theorem structured_allowed_only_spec (P : Prims) (target rel : String)
    (rule : Rule) (cfg : StructuredRule) (text : String)
    (parser : StructuredParser) (redact : Bool) (K : String)
    (entries : List (String × PyVal)) (hcfg : rule.structured = some cfg)
    (hak : cfg.allowed_keys = [K]) (hfk : cfg.forbidden_keys = [])
    (hp : parser text = ParseOut.dict entries) :
    eval_structured_rule P target rel rule text parser redact =
      (entries.filter (fun kv =>
        !(normKey cfg kv.1 == normKey cfg K) &&
          value_violates_policy cfg.value_policy kv.2)).map
        (fun kv => structuredFinding P target rel rule redact kv.1 kv.2) ∧
    ∀ f ∈ eval_structured_rule P target rel rule text parser redact,
      f.key ≠ some K := by
  have hmain : eval_structured_rule P target rel rule text parser redact =
      (entries.filter (fun kv =>
        !(normKey cfg kv.1 == normKey cfg K) &&
          value_violates_policy cfg.value_policy kv.2)).map
        (fun kv => structuredFinding P target rel rule redact kv.1 kv.2) := by
    unfold eval_structured_rule
    rw [hcfg, hp]
    exact structuredLoop_allowed_only P target rel rule cfg redact K hak hfk
      entries
  refine ⟨hmain, ?_⟩
  intro f hf he
  rw [hmain] at hf
  obtain ⟨kv, hkv, hfe⟩ := List.mem_map.mp hf
  have hkey : f.key = some kv.1 := by rw [← hfe]; rfl
  have hkK : kv.1 = K := by
    rw [hkey] at he
    exact Option.some.inj he
  have := (List.mem_filter.mp hkv).2
  rw [hkK] at this
  simp at this

/-- C1, witness for the corrected claim: on the mapping `{K: v1, X: v2}`
with value policy `any`, exactly the finding for `X` is emitted. -/
theorem structured_allowed_only_spec_witness :
    eval_structured_rule cPrims "t" "f" cStructRule "text" cParser true =
      [structuredFinding cPrims "t" "f" cStructRule true "X" (PyVal.vstr "v2")] := by
  have h := structured_allowed_only_spec cPrims "t" "f" cStructRule cStructCfg
    "text" cParser true "K" [("K", PyVal.vstr "v1"), ("X", PyVal.vstr "v2")]
    rfl rfl rfl rfl
  rw [h.1]
  rfl

/-! ### C5 — line-scope regex rules respect `max_matches` -/

lemma lineMatchLoop_invariant (P : Prims) (target rel : String) (rule : Rule)
    (rc : RegexRule) (redact : Bool) (idx : Nat) :
    ∀ (ms : List String) (count : Nat), count < rc.max_matches →
      (lineMatchLoop P target rel rule rc redact idx ms count).2.1 =
        count + (lineMatchLoop P target rel rule rc redact idx ms count).1.length ∧
      (lineMatchLoop P target rel rule rc redact idx ms count).2.1 ≤ rc.max_matches ∧
      ((lineMatchLoop P target rel rule rc redact idx ms count).2.2 = false →
        (lineMatchLoop P target rel rule rc redact idx ms count).2.1 < rc.max_matches) := by
  intro ms
  induction ms with
  | nil =>
    intro count h
    simp only [lineMatchLoop, List.length_nil]
    exact ⟨by omega, by omega, fun _ => h⟩
  | cons raw rest ih =>
    intro count h
    by_cases hs : allow_regex_suppresses P rule raw = true
    · simpa [lineMatchLoop, hs] using ih count h
    · by_cases hm : rc.max_matches ≤ count + 1
      · simp only [lineMatchLoop, hs, Bool.false_eq_true, if_neg, if_false,
          if_pos hm]
        exact ⟨rfl, by omega, by intro hc; exact absurd hc (by simp)⟩
      · have h1 : count + 1 < rc.max_matches := by omega
        obtain ⟨e1, e2, e3⟩ := ih (count + 1) h1
        simp only [lineMatchLoop, hs, Bool.false_eq_true, if_neg, if_false,
          if_neg hm, List.length_cons]
        refine ⟨by rw [e1]; omega, e2, e3⟩

lemma lineMatchLoop_line (P : Prims) (target rel : String) (rule : Rule)
    (rc : RegexRule) (redact : Bool) (idx : Nat) :
    ∀ (ms : List String) (count : Nat)
      (f : Finding), f ∈ (lineMatchLoop P target rel rule rc redact idx ms count).1 →
      f.line = some idx := by
  intro ms
  induction ms with
  | nil => intro count f hf; simp [lineMatchLoop] at hf
  | cons raw rest ih =>
    intro count f hf
    by_cases hs : allow_regex_suppresses P rule raw = true
    · rw [lineMatchLoop, if_pos hs] at hf
      exact ih count f hf
    · by_cases hm : rc.max_matches ≤ count + 1
      · rw [lineMatchLoop, if_neg (by simp [hs]), if_pos hm] at hf
        rcases List.mem_singleton.mp hf with rfl
        rfl
      · rw [lineMatchLoop, if_neg (by simp [hs]), if_neg hm] at hf
        rcases List.mem_cons.mp hf with rfl | hf'
        · rfl
        · exact ih (count + 1) f hf'

lemma regexLineLoop_spec (P : Prims) (target rel : String) (rule : Rule)
    (rc : RegexRule) (redact : Bool) :
    ∀ (pairs : List (Nat × String)) (count : Nat), count < rc.max_matches →
      (regexLineLoop P target rel rule rc redact pairs count).length ≤
        rc.max_matches - count ∧
      ∀ f ∈ regexLineLoop P target rel rule rc redact pairs count,
        ∃ p ∈ pairs, f.line = some p.1 ∧ 4 ≤ p.2.length := by
  intro pairs
  induction pairs with
  | nil =>
    intro count h
    exact ⟨by simp [regexLineLoop], by intro f hf; simp [regexLineLoop] at hf⟩
  | cons p rest ih =>
    intro count h
    obtain ⟨idx, line⟩ := p
    by_cases hshort : line.length < 4
    · obtain ⟨ihl, ihm⟩ := ih count h
      rw [regexLineLoop, if_pos hshort]
      exact ⟨ihl, fun f hf =>
        (ihm f hf).elim (fun q hq => ⟨q, List.mem_cons_of_mem _ hq.1, hq.2⟩)⟩
    · by_cases hsup : allow_regex_suppresses P rule line = true
      · obtain ⟨ihl, ihm⟩ := ih count h
        rw [regexLineLoop, if_neg hshort, if_pos hsup]
        exact ⟨ihl, fun f hf =>
          (ihm f hf).elim (fun q hq => ⟨q, List.mem_cons_of_mem _ hq.1, hq.2⟩)⟩
      · obtain ⟨e1, e2, e3⟩ := lineMatchLoop_invariant P target rel rule rc redact
          idx (P.reFinditer rc.regex rc.multiline line) count h
        have h4 : 4 ≤ line.length := by omega
        by_cases hstop : (lineMatchLoop P target rel rule rc redact idx
            (P.reFinditer rc.regex rc.multiline line) count).2.2 = true
        · rw [regexLineLoop, if_neg hshort, if_neg hsup, if_pos hstop]
          constructor
          · omega
          · intro f hf
            exact ⟨(idx, line), List.mem_cons_self _ _,
              lineMatchLoop_line P target rel rule rc redact idx _ count f hf, h4⟩
        · have hlt := e3 (by simpa using hstop)
          obtain ⟨ihl, ihm⟩ := ih
            ((lineMatchLoop P target rel rule rc redact idx
              (P.reFinditer rc.regex rc.multiline line) count).2.1) hlt
          rw [regexLineLoop, if_neg hshort, if_neg hsup, if_neg hstop]
          constructor
          · rw [List.length_append]
            omega
          · intro f hf
            rcases List.mem_append.mp hf with hf' | hf'
            · exact ⟨(idx, line), List.mem_cons_self _ _,
                lineMatchLoop_line P target rel rule rc redact idx _ count f hf', h4⟩
            · exact (ihm f hf').elim
                (fun q hq => ⟨q, List.mem_cons_of_mem _ hq.1, hq.2⟩)

/-- C5 (confirmed): a line-scoped regex rule with a positive `max_matches`
cap emits at most `max_matches` content findings for a file no matter how
many matches each line holds, and every emitted finding originates from a
line of at least 4 characters (shorter lines contribute nothing).  The
`max_matches` field is modelled from the spec as the rule's cap; for a cap
of zero the loop would emit one finding before testing the bound. -/
theorem regex_line_scope_spec (P : Prims) (target rel : String) (rule : Rule)
    (rc : RegexRule) (text : String) (redact : Bool)
    (hrc : rule.regex = some rc) (hscope : rc.scope = MatchScope.line)
    (hmax : 1 ≤ rc.max_matches) :
    (eval_regex_rule P target rel rule text redact).length ≤ rc.max_matches ∧
    ∀ f ∈ eval_regex_rule P target rel rule text redact,
      ∃ p ∈ enum1 (splitlines text), f.line = some p.1 ∧ 4 ≤ p.2.length := by
  have hne : ¬(rc.scope = MatchScope.file) := by rw [hscope]; simp
  have hrw : eval_regex_rule P target rel rule text redact =
      regexLineLoop P target rel rule rc redact (enum1 (splitlines text)) 0 := by
    unfold eval_regex_rule
    rw [hrc]
    simp [hne]
  obtain ⟨h1, h2⟩ := regexLineLoop_spec P target rel rule rc redact
    (enum1 (splitlines text)) 0 (by omega)
  rw [hrw]
  exact ⟨by omega, h2⟩

/-- Matching oracle that yields three raw matches on every line and never
allow-suppresses, for the witness. -/
def cPrims3 : Prims :=
  { fnmatch := fun _ _ => true,
    reSearch := fun _ _ _ => false,
    reFinditer := fun _ _ t => [t, t, t],
    stableHash := fun _ => "h" }

/-- A line-scoped regex payload capped at two matches. -/
def cLineRc : RegexRule :=
  { regex := "p", multiline := false, scope := MatchScope.line, max_matches := 2 }

/-- A rule carrying `cLineRc`. -/
def cLineRule : Rule :=
  { id := "rx2", severity := Severity.critical, enabled := true,
    type := RuleType.regex, regex := some cLineRc }

/-- C5, witness: over three lines (one shorter than four characters) with
three matches each, the rule emits exactly two findings, within its cap of
two. -/
theorem regex_line_scope_spec_witness :
    (eval_regex_rule cPrims3 "t" "f" cLineRule "abcdef\nxy\nghijkl" true).length = 2 ∧
    (eval_regex_rule cPrims3 "t" "f" cLineRule "abcdef\nxy\nghijkl" true).length ≤
      cLineRc.max_matches :=
  ⟨by decide,
   (regex_line_scope_spec cPrims3 "t" "f" cLineRule cLineRc "abcdef\nxy\nghijkl"
     true rfl rfl (by decide)).1⟩

end Scout
